import Mathlib

/-!
Verification of the nginx log-statistics script (`stats.py`, class `WebStats`)
against its natural-language specification.

The script is a sequential batch pipeline: parse log lines into request
records, enrich each record with WHOIS ownership/country data through a
persistent cache, filter and aggregate.  The Lean development below is a
shallow embedding of the functions the claims touch:

* `processline`, `readfile`, `read_logfiles` — line parsing and log reading;
* `whoislookup`, `enrichLoop`, `collect_whois` — the enricher with its
  cache, failed set, last-failed marker, and rollback-on-crash behaviour;
* `exportCache` / `read_whois_cache` — persistence of the cache pair;
* `countries`, `names`, `inspect_name` — the aggregation views and the
  keyword scanner used by the bot/academic filters.

External collaborators are parameters: the dateutil fuzzy date parser is an
arbitrary `String → Option Nat`, the live WHOIS service is an arbitrary
`String → LookupOutcome`, and the pycountry reference data is an arbitrary
association list of (alpha-2 code, full name) pairs.
-/

namespace NginxStats

/-- Ownership tuple `(name, description, city, country)` as built from one
entry of the nets list; each component is a Python value that may be `None`. -/
abbrev NTuple := Option String × Option String × Option String × Option String

/-- One entry of the nets list returned by `ipwhois.lookup_whois`. -/
structure Net where
  name : Option String
  description : Option String
  city : Option String
  country : Option String
deriving DecidableEq, Repr

/-- Outcome of one live call `ipwhois.IPWhois(ip).lookup_whois(retry_count=5)`:
success with the fields the script reads, one of the three recognized
exception classes (`HTTPLookupError`, `HTTPRateLimitError`,
`WhoisLookupError`), or any other (unexpected) exception. -/
inductive LookupOutcome where
  | success (asn_country_code : Option String) (nets : List Net)
  | transient
  | unexpected
deriving DecidableEq, Repr

/-- The value shape stored in `WHOIS_CACHE` and merged into records:
the dict holding the keys country, names and _whois_done. -/
structure WhoisEntry where
  country : Option String
  names : List NTuple
  whois_done : Bool
deriving DecidableEq, Repr

/-- Mutable state of the enricher: the `WHOIS_CACHE` dict (an insertion-ordered
association list, as Python dicts are), the `WHOIS_FAILED` set (list without
duplicates), and the `last_failed` marker. -/
structure WhoisState where
  cache : List (String × WhoisEntry)
  failed : List String
  last_failed : Option String
deriving DecidableEq, Repr

/-- One request record, as the dict built by `processline` and later mutated
by `whoislookup`.  The last three fields model dict keys that may be absent
(`none`) — `country` is doubly optional because the key may be present with
value `None`. -/
structure Record where
  ip : String
  req_url : String
  time : Nat
  http_code : Option Nat
  page : String
  from_url : String
  useragent : String
  country : Option (Option String)
  names : Option (List NTuple)
  whois_done : Option Bool
deriving DecidableEq, Repr

/-- Python `d[k]` / `k in d` lookup on the cache dict. -/
def dictGet (d : List (String × WhoisEntry)) (k : String) : Option WhoisEntry :=
  (d.find? (fun p => p.1 == k)).map (fun p => p.2)

/-- Python `d[k] = v`: replace in place if the key exists, else append. -/
def dictInsert (d : List (String × WhoisEntry)) (k : String) (v : WhoisEntry) :
    List (String × WhoisEntry) :=
  match d with
  | [] => [(k, v)]
  | (k', v') :: rest =>
    if k' == k then (k, v) :: rest else (k', v') :: dictInsert rest k v

/-- Keys of the cache dict. -/
def dictKeys (d : List (String × WhoisEntry)) : List String :=
  d.map (fun p => p.1)

/-- Python `s.add(a)` on a set modelled as a duplicate-free list. -/
def setAdd (s : List String) (a : String) : List String :=
  if a ∈ s then s else s ++ [a]

/-- Python `s.discard(x)` where `x` is `self.last_failed` (possibly `None`). -/
def discardOpt (s : List String) : Option String → List String
  | none => s
  | some a => s.filter (fun x => x ≠ a)

/-- Default `this_whois` dict built at the top of `whoislookup`. -/
def defaultEntry : WhoisEntry :=
  { country := none, names := [(none, none, none, none)], whois_done := false }

/-- Python `l.update(this_whois)`: set the three enrichment keys. -/
def recUpdate (l : Record) (e : WhoisEntry) : Record :=
  { l with country := some e.country, names := some e.names,
           whois_done := some e.whois_done }

/-- Result of one `whoislookup` call that did not raise an unexpected
exception: new state, the (possibly mutated) record, and whether a live
network lookup was issued. -/
structure WLOut where
  st : WhoisState
  record : Record
  looked : Bool
deriving DecidableEq, Repr

/-- Shallow embedding of `WebStats.whoislookup`.  Branches, in source order:
already `_whois_done` → return; address in cache → copy entry onto record;
address in failed set → return untouched; otherwise live lookup, which on
success fills and caches an entry, on a recognized transient error marks the
address failed and records it as `last_failed` (the record still receives the
default entry), and on any other exception propagates (`Except.error`). -/
def whoislookup (lookup : String → LookupOutcome) (st : WhoisState) (l : Record) :
    Except Unit WLOut :=
  if l.whois_done = some true then .ok ⟨st, l, false⟩
  else
    match dictGet st.cache l.ip with
    | some e => .ok ⟨st, recUpdate l e, false⟩
    | none =>
      if l.ip ∈ st.failed then .ok ⟨st, l, false⟩
      else
        match lookup l.ip with
        | .success cc nets =>
          let e : WhoisEntry :=
            { country := cc,
              names := nets.map (fun n => (n.name, n.description, n.city, n.country)),
              whois_done := true }
          .ok ⟨{ st with cache := dictInsert st.cache l.ip e }, recUpdate l e, true⟩
        | .transient =>
          .ok ⟨{ st with failed := setAdd st.failed l.ip, last_failed := some l.ip },
               recUpdate l defaultEntry, true⟩
        | .unexpected => .error ()

/-- The `list(map(self.whoislookup, self.data))` loop inside `collect_whois`:
records are processed left to right; an unexpected exception stops the loop,
leaving the remaining records (including the failing one) unenriched.  The
final `Bool` is true iff an unexpected exception was raised. -/
def enrichLoop (lookup : String → LookupOutcome) (st : WhoisState) :
    List Record → WhoisState × List Record × Bool
  | [] => (st, [], false)
  | l :: ls =>
    match whoislookup lookup st l with
    | .error _ => (st, l :: ls, true)
    | .ok o =>
      match enrichLoop lookup o.st ls with
      | (st2, ls2, err2) => (st2, o.record :: ls2, err2)

/-- Rollback performed in the `except:` branch of `collect_whois`:
`WHOIS_FAILED.discard(last_failed)`. -/
def applyRollback (st : WhoisState) : WhoisState :=
  { st with failed := discardOpt st.failed st.last_failed }

/-- Result of `collect_whois`: final state, the record list, and — when the
crash path ran — the (cache, failed) pair pickled to the cache file. -/
structure CollectOut where
  st : WhoisState
  data : List Record
  persisted : Option (List (String × WhoisEntry) × List String)
deriving DecidableEq, Repr

/-- Shallow embedding of `WebStats.collect_whois`.  The bare `except:` clause
catches every exception from the enrichment loop, discards `last_failed` from
the failed set and pickles the cache pair; it does not re-raise, so the
function never returns `Except.error` — the result type still allows it to
make the swallowing observable to the caller. -/
def collect_whois (lookup : String → LookupOutcome) (st : WhoisState)
    (data : List Record) : Except Unit CollectOut :=
  match enrichLoop lookup st data with
  | (st', data', false) => .ok ⟨st', data', none⟩
  | (st', data', true) =>
    let st'' := applyRollback st'
    .ok ⟨st'', data', some (st''.cache, st''.failed)⟩

/-- Python `s.isdigit()`: non-empty and every character a digit. -/
def pyIsDigit (s : String) : Bool :=
  !s.data.isEmpty && s.data.all Char.isDigit

/-- Python `int(s)` on a digit-only string. -/
def pyInt (s : String) : Nat :=
  s.data.foldl (fun n c => n * 10 + (c.toNat - 48)) 0

/-- Shallow embedding of `WebStats.processline`.  The dateutil fuzzy parser
is an external collaborator, passed in as `parseDate`; timestamps are
abstract `Nat` values.  Reading a positional field of a too-short line
raises `IndexError` (here `Except.error`), and an unparseable timestamp
raises from `dateutil` (also `Except.error`); the largest index read is 9,
so any line of length ≥ 10 has every required field. -/
def processline (parseDate : String → Option Nat) (l : List String) :
    Except Unit Record :=
  if h : 10 ≤ l.length then
    match parseDate ((l[3].drop 1) ++ " " ++ (l[4].dropRight 1)) with
    | some t =>
      .ok { ip := l[0], req_url := l[1], time := t,
            http_code := if pyIsDigit l[6] then some (pyInt l[6]) else none,
            page := l[5], from_url := l[8], useragent := l[9],
            country := none, names := none, whois_done := none }
    | none => .error ()
  else .error ()

/-- Character loop of `WebStats.readfile`: a double quote toggles `in_q` and
is dropped; a newline outside quotes closes the current field and line (a
newline inside quotes is dropped); a space outside quotes closes the current
field; any other character is appended to the field.  At end of input the
pending line is kept only if it already has at least one closed field. -/
def readfileAux : Bool → String → List String → List (List String) →
    List Char → List (List String)
  | _, field, line, out, [] =>
    if line.length ≠ 0 then out ++ [line ++ [field]] else out
  | in_q, field, line, out, c :: cs =>
    if c = Char.ofNat 34 then readfileAux (!in_q) field line out cs
    else if c = '\n' then
      if in_q then readfileAux in_q field line out cs
      else readfileAux in_q "" [] (out ++ [line ++ [field]]) cs
    else if c = ' ' ∧ in_q = false then
      readfileAux in_q "" (line ++ [field]) out cs
    else readfileAux in_q (field.push c) line out cs

/-- Shallow embedding of `WebStats.readfile`: split file contents into
quote-aware space-separated fields grouped into lines. -/
def readfile (s : String) : List (List String) :=
  readfileAux false "" [] [] s.data

/-- The `map(self.processline, …)` part of `read_logfiles`: the Python list call
forces the lazy maps, so the first exception from `processline` propagates
and discards all records. -/
def parseLines (parseDate : String → Option Nat) :
    List (List String) → Except Unit (List Record)
  | [] => .ok []
  | l :: ls =>
    match processline parseDate l with
    | .error e => .error e
    | .ok r =>
      match parseLines parseDate ls with
      | .error e => .error e
      | .ok rs => .ok (r :: rs)

/-- Shallow embedding of `WebStats.read_logfiles`: parse every line of every
file (file contents given directly, standing for `self.logs`), then filter
by the caller-supplied `domain_filter`. -/
def read_logfiles (parseDate : String → Option Nat) (files : List String)
    (domain_filter : Record → Bool) : Except Unit (List Record) :=
  match parseLines parseDate ((files.map readfile).flatten) with
  | .error e => .error e
  | .ok rs => .ok (rs.filter domain_filter)

/-! Persistence of the WHOIS cache.  `export` and `read_whois_cache` call
`pickle.dump` / `pickle.load` on the pair `(WHOIS_CACHE, WHOIS_FAILED)`. -/

/-- Serialized token as written to the cache file. -/
inductive Tok where
  | nat (n : Nat)
  | str (s : String)
deriving DecidableEq, Repr

/-- Encode an optional string (a field that may be Python `None`). -/
def encOptStr : Option String → List Tok
  | none => [.nat 0]
  | some s => [.nat 1, .str s]

/-- Decoder matching `encOptStr`; returns the remaining tokens. -/
def decOptStr : List Tok → Option (Option String × List Tok)
  | .nat 0 :: r => some (none, r)
  | .nat 1 :: .str s :: r => some (some s, r)
  | _ => none

/-- Encode an ownership tuple. -/
def encTuple (t : NTuple) : List Tok :=
  encOptStr t.1 ++ encOptStr t.2.1 ++ encOptStr t.2.2.1 ++ encOptStr t.2.2.2

/-- Decoder matching `encTuple`. -/
def decTuple (ts : List Tok) : Option (NTuple × List Tok) := do
  let (a, ts) ← decOptStr ts
  let (b, ts) ← decOptStr ts
  let (c, ts) ← decOptStr ts
  let (d, ts) ← decOptStr ts
  return ((a, b, c, d), ts)

/-- Length-prefixed encoding of a list. -/
def encListWith {α : Type} (enc : α → List Tok) (l : List α) : List Tok :=
  Tok.nat l.length :: (l.map enc).flatten

/-- Decode exactly `n` elements. -/
def decListNWith {α : Type} (dec : List Tok → Option (α × List Tok)) :
    Nat → List Tok → Option (List α × List Tok)
  | 0, ts => some ([], ts)
  | n + 1, ts => do
    let (a, ts') ← dec ts
    let (as, ts'') ← decListNWith dec n ts'
    return (a :: as, ts'')

/-- Decoder matching `encListWith`. -/
def decListWith {α : Type} (dec : List Tok → Option (α × List Tok)) :
    List Tok → Option (List α × List Tok)
  | .nat n :: ts => decListNWith dec n ts
  | _ => none

/-- Encode a boolean flag. -/
def encBool : Bool → List Tok
  | false => [.nat 0]
  | true => [.nat 1]

/-- Decoder matching `encBool`. -/
def decBool : List Tok → Option (Bool × List Tok)
  | .nat 0 :: r => some (false, r)
  | .nat 1 :: r => some (true, r)
  | _ => none

/-- Encode one cache value (`country` / `names` / `_whois_done`). -/
def encEntry (e : WhoisEntry) : List Tok :=
  encOptStr e.country ++ encListWith encTuple e.names ++ encBool e.whois_done

/-- Decoder matching `encEntry`. -/
def decEntry (ts : List Tok) : Option (WhoisEntry × List Tok) := do
  let (c, ts) ← decOptStr ts
  let (ns, ts) ← decListWith decTuple ts
  let (d, ts) ← decBool ts
  return (⟨c, ns, d⟩, ts)

/-- Encode one `WHOIS_CACHE` item. -/
def encItem (p : String × WhoisEntry) : List Tok :=
  Tok.str p.1 :: encEntry p.2

/-- Decoder matching `encItem`. -/
def decItem : List Tok → Option ((String × WhoisEntry) × List Tok)
  | .str k :: ts => do
    let (e, ts) ← decEntry ts
    return ((k, e), ts)
  | _ => none

/-- Encode one member of `WHOIS_FAILED`. -/
def encStrTok (s : String) : List Tok := [Tok.str s]

/-- Decoder matching `encStrTok`. -/
def decStrTok : List Tok → Option (String × List Tok)
  | .str s :: ts => some (s, ts)
  | _ => none

/-- Encode the pickled pair `(WHOIS_CACHE, WHOIS_FAILED)`. -/
def encPair (c : List (String × WhoisEntry)) (f : List String) : List Tok :=
  encListWith encItem c ++ encListWith encStrTok f

/-- Decoder matching `encPair`; the whole file must be consumed. -/
def decPair (ts : List Tok) :
    Option (List (String × WhoisEntry) × List String) := do
  let (c, ts) ← decListWith decItem ts
  let (f, ts) ← decListWith decStrTok ts
  if ts.isEmpty then return (c, f) else none

/-- Modelled from the spec: the `pickle.dump((self.WHOIS_CACHE,
self.WHOIS_FAILED), fp)` call shared by `WebStats.export` and the crash path
of `collect_whois`.  The pickle module is outside this repository, so
serialization is modelled as an injective token encoding of the pair,
matching the contract of the spec: Must round-trip exactly through save/load. -/
def exportCache (st : WhoisState) : List Tok :=
  encPair st.cache st.failed

/-- Shallow embedding of `WebStats.read_whois_cache`: if the cache file is
absent both structures keep their initial empty values (and `last_failed`
its initial `None`); otherwise both are deserialized from the file (a load
failure would raise, hence the outer `Option`). -/
def read_whois_cache (file : Option (List Tok)) : Option WhoisState :=
  match file with
  | none => some ⟨[], [], none⟩
  | some ts =>
    match decPair ts with
    | some (c, f) => some ⟨c, f, none⟩
    | none => none

/-! Aggregation views.  The pycountry reference data is an association list
`ref` of (alpha-2 code, full name) pairs. -/

/-- The set `allcountr` of recognized alpha-2 codes. -/
def isoCodes (ref : List (String × String)) : List String :=
  ref.map (fun p => p.1)

/-- The `pycountry.countries.lookup(code).name` call; the script only applies
it to codes that passed the membership filter, so a default covers the
unreachable missing case. -/
def countryName (ref : List (String × String)) (c : String) : String :=
  ((ref.find? (fun p => p.1 == c)).map (fun p => p.2)).getD ""

/-- The filter testing that the country key is in d and its value is in allcountr: the key must
be present, its value must not be `None`, and the code must be recognized. -/
def countryOk (ref : List (String × String)) (d : Record) : Bool :=
  match d.country with
  | some (some c) => (isoCodes ref).contains c
  | _ => false

/-- The country value read by the pair-building map, which only runs
on records that passed `countryOk`. -/
def countryStr (d : Record) : String :=
  match d.country with
  | some (some c) => c
  | _ => ""

/-- Shallow embedding of `WebStats.countries`: filter records with a
recognized country code, map to `(code, address)` pairs, form the Python
`set` (dedup), then map codes to full names; the returned list is the
multiset underlying the `collections.Counter`. -/
def countries (ref : List (String × String)) (data : List Record) :
    List String :=
  (((data.filter (countryOk ref)).map (fun d => (countryStr d, d.ip))).dedup).map
    (fun p => countryName ref p.1)

/-- Count of one country name in the `countries` Counter. -/
def countriesCount (ref : List (String × String)) (data : List Record)
    (nm : String) : Nat :=
  (countries ref data).count nm

/-- Python `str(x)` on an ownership-tuple component. -/
def strOfOpt : Option String → String
  | none => "None"
  | some s => s

/-- The Python replace call turning each newline into comma-space; the pattern is one character, so the
replacement is an exact character-level expansion. -/
def replaceNL (s : String) : String :=
  String.mk ((s.data.map (fun c => if c = '\n' then [',', ' '] else [c])).flatten)

/-- Name label of one ownership tuple:
the first names tuple stringified, comma-joined, newlines replaced. -/
def mkLabel (t : NTuple) : String :=
  replaceNL (strOfOpt t.1 ++ ", " ++ strOfOpt t.2.1 ++ ", " ++
    strOfOpt t.2.2.1 ++ ", " ++ strOfOpt t.2.2.2)

/-- The filter of `WebStats.names`: the names key present with a non-empty list. -/
def hasNames (d : Record) : Bool :=
  match d.names with
  | some (_ :: _) => true
  | _ => false

/-- The label built from the first names tuple, for records that passed `hasNames`. -/
def firstLabel (d : Record) : String :=
  match d.names with
  | some (t :: _) => mkLabel t
  | _ => ""

/-- Shallow embedding of `WebStats.names`: build `(label, ip)` pairs from
qualifying records, optionally form the Python `set` (dedup), then keep the
labels; the returned list is the multiset underlying the Counter. -/
def names (data : List Record) (unique : Bool) : List String :=
  let lst := (data.filter hasNames).map (fun d => (firstLabel d, d.ip))
  (if unique then lst.dedup else lst).map (fun p => p.1)

/-- Count of one label in the `names` Counter. -/
def namesCount (data : List Record) (unique : Bool) (label : String) : Nat :=
  (names data unique).count label

/-- Bool test for `pat` occurring as a contiguous run at the head of `l`. -/
def leadsWith : List Char → List Char → Bool
  | [], _ => true
  | _ :: _, [] => false
  | p :: ps, c :: cs => p == c && leadsWith ps cs

/-- Bool test for `pat` occurring as a contiguous run anywhere in the list. -/
def subFound (pat : List Char) : List Char → Bool
  | [] => leadsWith pat []
  | c :: cs => leadsWith pat (c :: cs) || subFound pat cs

/-- Python `pat in hay` on strings. -/
def strHas (hay pat : String) : Bool :=
  subFound pat.data hay.data

/-- Iteration order of `for n1 in n0` over one ownership tuple. -/
def tupleItems (t : NTuple) : List (Option String) :=
  [t.1, t.2.1, t.2.2.1, t.2.2.2]

/-- Shallow embedding of `WebStats.inspect_name`: scan every tuple of the
names list of the record and every component of every tuple (a 4-tuple is always
truthy, so the `if not n0` guard never skips; a `None` or empty-string
component is skipped), and report whether any component contains any
keyword as a substring. -/
def inspect_name (n : List NTuple) (kws : List String) : Bool :=
  n.any fun t => (tupleItems t).any fun i =>
    match i with
    | none => false
    | some s => if s = "" then false else kws.any (fun b => strHas s b)

/-! Specification-side definitions, written from the wording of the claims, to be
compared with the source embeddings above. -/

/-- Spec-side view for the country aggregation: the `(code, address)` pairs
of records whose resolved country code is in the ISO set. -/
def countryPairsSpec (ref : List (String × String)) (data : List Record) :
    List (String × String) :=
  data.filterMap fun d =>
    match d.country with
    | some (some c) => if (isoCodes ref).contains c then some (c, d.ip) else none
    | _ => none

/-- Spec-side count: the number of distinct `(code, address)` pairs whose
code maps to the given full country name. -/
def countrySpecCount (ref : List (String × String)) (data : List Record)
    (nm : String) : Nat :=
  ((countryPairsSpec ref data).dedup.filter
    (fun p => countryName ref p.1 == nm)).length

/-- Spec-side view for the name aggregations: the `(label, address)` pairs
of records carrying at least one ownership tuple. -/
def namePairsSpec (data : List Record) : List (String × String) :=
  data.filterMap fun d =>
    match d.names with
    | some (t :: _) => some (mkLabel t, d.ip)
    | _ => none

deriving instance DecidableEq for Except

/-- Concrete request record used by the closed instances below, with the
enrichment keys absent as `processline` leaves them. -/
def mkRec (ip : String) : Record :=
  { ip := ip, req_url := "u", time := 0, http_code := some 200, page := "/p",
    from_url := "r", useragent := "ua", country := none, names := none,
    whois_done := none }

/-! Helper lemmas about the container operations. -/

theorem mem_setAdd {s : List String} {a x : String} :
    x ∈ setAdd s a ↔ x ∈ s ∨ x = a := by
  unfold setAdd
  split
  · constructor
    · exact fun hx => Or.inl hx
    · rintro (hx | rfl)
      · exact hx
      · assumption
  · simp

theorem mem_of_mem_discardOpt {s : List String} {lf : Option String} {x : String}
    (h : x ∈ discardOpt s lf) : x ∈ s := by
  cases lf with
  | none => exact h
  | some a => exact (List.mem_filter.mp h).1

theorem dictKeys_dictInsert {d : List (String × WhoisEntry)} {k : String}
    {v : WhoisEntry} {a : String} (h : a ∈ dictKeys (dictInsert d k v)) :
    a = k ∨ a ∈ dictKeys d := by
  induction d with
  | nil =>
    simp [dictInsert, dictKeys] at h
    exact Or.inl h
  | cons p rest ih =>
    obtain ⟨k', v'⟩ := p
    by_cases hk : k' == k
    · simp [dictInsert, dictKeys, hk] at h ⊢
      rcases h with h | h
      · exact Or.inl h
      · exact Or.inr (Or.inr h)
    · simp [dictInsert, dictKeys, hk] at h ⊢
      rcases h with h | h
      · exact Or.inr (Or.inl h)
      · rcases ih (by simpa [dictKeys] using h) with h' | h'
        · exact Or.inl h'
        · exact Or.inr (Or.inr (by simpa [dictKeys] using h'))

theorem dictGet_none_not_mem {d : List (String × WhoisEntry)} {k : String}
    (h : dictGet d k = none) : k ∉ dictKeys d := by
  induction d with
  | nil => simp [dictKeys]
  | cons p rest ih =>
    obtain ⟨k', v'⟩ := p
    by_cases hk : k' == k
    · simp [dictGet, List.find?, hk] at h
    · have h' : dictGet rest k = none := by
        simpa [dictGet, List.find?, hk] using h
      intro hmem
      rcases (by simpa [dictKeys] using hmem : k = k' ∨ k ∈ dictKeys rest) with
        rfl | hm
      · exact hk (by simp)
      · exact ih h' hm

/-! Claim C5: enriching a record already marked complete is a no-op. -/

/-- C5 — applying the Enricher to a record already marked
enrichment-complete (`_whois_done` present and true) returns immediately:
the record is unchanged, the cache / failed set / last-failed marker are
untouched, and no live lookup is issued. -/
theorem enrich_done_noop (lookup : String → LookupOutcome) (st : WhoisState)
    (l : Record) (h : l.whois_done = some true) :
    whoislookup lookup st l = .ok ⟨st, l, false⟩ := by
  simp [whoislookup, h]

/-- Closed instance of `enrich_done_noop` at a concrete state and record. -/
theorem enrich_done_noop_witness :
    whoislookup (fun _ => .unexpected)
      ⟨[("1.1.1.1", defaultEntry)], ["2.2.2.2"], none⟩
      { mkRec "7.7.7.7" with whois_done := some true } =
    .ok ⟨⟨[("1.1.1.1", defaultEntry)], ["2.2.2.2"], none⟩,
         { mkRec "7.7.7.7" with whois_done := some true }, false⟩ :=
  enrich_done_noop (fun _ => .unexpected)
    ⟨[("1.1.1.1", defaultEntry)], ["2.2.2.2"], none⟩
    { mkRec "7.7.7.7" with whois_done := some true } rfl

/-! Claim C4: cached and known-failed addresses cause no live lookup. -/

/-- C4 — for a record not yet marked enrichment-complete (as every record
produced by the parser is): if its address is a key of the WHOIS cache, the
cached metadata is copied onto the record, and if its address is in the
failed set but not in the cache, the record is left untouched (its metadata
stays at the default absent values); in both cases the state is unchanged
and zero live lookups are issued. -/
theorem cached_or_failed_no_live_lookup (lookup : String → LookupOutcome)
    (st : WhoisState) (l : Record) (hdone : l.whois_done ≠ some true) :
    (∀ e, dictGet st.cache l.ip = some e →
      whoislookup lookup st l = .ok ⟨st, recUpdate l e, false⟩) ∧
    (dictGet st.cache l.ip = none → l.ip ∈ st.failed →
      whoislookup lookup st l = .ok ⟨st, l, false⟩) := by
  constructor
  · intro e he
    simp [whoislookup, hdone, he]
  · intro hnone hmem
    simp [whoislookup, hdone, hnone, hmem]

/-- Closed instance of `cached_or_failed_no_live_lookup`: a cached address
gets the cached entry copied; a failed address is skipped untouched. -/
theorem cached_or_failed_no_live_lookup_witness :
    whoislookup (fun _ => .unexpected)
      ⟨[("1.1.1.1", ⟨some "DE", [(some "Acme", none, none, none)], true⟩)],
        ["2.2.2.2"], none⟩ (mkRec "1.1.1.1") =
      .ok ⟨⟨[("1.1.1.1", ⟨some "DE", [(some "Acme", none, none, none)], true⟩)],
            ["2.2.2.2"], none⟩,
           recUpdate (mkRec "1.1.1.1")
             ⟨some "DE", [(some "Acme", none, none, none)], true⟩, false⟩ ∧
    whoislookup (fun _ => .unexpected)
      ⟨[("1.1.1.1", ⟨some "DE", [(some "Acme", none, none, none)], true⟩)],
        ["2.2.2.2"], none⟩ (mkRec "2.2.2.2") =
      .ok ⟨⟨[("1.1.1.1", ⟨some "DE", [(some "Acme", none, none, none)], true⟩)],
            ["2.2.2.2"], none⟩, mkRec "2.2.2.2", false⟩ := by
  refine ⟨?_, ?_⟩
  · exact (cached_or_failed_no_live_lookup (fun _ => .unexpected) _
      (mkRec "1.1.1.1") (by decide)).1
      ⟨some "DE", [(some "Acme", none, none, none)], true⟩ (by decide)
  · exact (cached_or_failed_no_live_lookup (fun _ => .unexpected) _
      (mkRec "2.2.2.2") (by decide)).2 (by decide) (by decide)

/-! Case analysis of a non-raising `whoislookup` call, and the state
invariants the enrichment loop preserves. -/

theorem whoislookup_ok_state (lookup : String → LookupOutcome)
    (st : WhoisState) (l : Record) (o : WLOut)
    (h : whoislookup lookup st l = .ok o) :
    o.st = st ∨
    (∃ e, dictGet st.cache l.ip = none ∧ l.ip ∉ st.failed ∧
      o.st = { st with cache := dictInsert st.cache l.ip e }) ∨
    (dictGet st.cache l.ip = none ∧ l.ip ∉ st.failed ∧
      o.st = { st with failed := setAdd st.failed l.ip,
                       last_failed := some l.ip }) := by
  unfold whoislookup at h
  split at h
  · injection h with h
    exact Or.inl (by rw [← h])
  · split at h
    · injection h with h
      exact Or.inl (by rw [← h])
    · rename_i hnone
      split at h
      · injection h with h
        exact Or.inl (by rw [← h])
      · rename_i hnf
        split at h
        · rename_i cc nets heq
          injection h with h
          exact Or.inr (Or.inl ⟨_, hnone, hnf, by rw [← h]⟩)
        · injection h with h
          exact Or.inr (Or.inr ⟨hnone, hnf, by rw [← h]⟩)
        · cases h

/-- Disjointness of the resolved cache and the failed set. -/
def DisjSt (st : WhoisState) : Prop :=
  ∀ a, a ∈ dictKeys st.cache → a ∉ st.failed

/-- The last-failed marker, when set, names a member of the failed set. -/
def LastOk (st : WhoisState) : Prop :=
  ∀ A, st.last_failed = some A → A ∈ st.failed

theorem DisjSt_whois (lookup : String → LookupOutcome) (st : WhoisState)
    (l : Record) (o : WLOut) (hd : DisjSt st)
    (h : whoislookup lookup st l = .ok o) : DisjSt o.st := by
  rcases whoislookup_ok_state lookup st l o h with
    heq | ⟨e, hnone, hnf, heq⟩ | ⟨hnone, hnf, heq⟩
  · rw [heq]; exact hd
  · rw [heq]
    intro a ha hmem
    rcases dictKeys_dictInsert ha with rfl | ha'
    · exact hnf hmem
    · exact hd a ha' hmem
  · rw [heq]
    intro a ha hmem
    rcases mem_setAdd.mp hmem with hmem' | rfl
    · exact hd a ha hmem'
    · exact dictGet_none_not_mem hnone ha

theorem LastOk_whois (lookup : String → LookupOutcome) (st : WhoisState)
    (l : Record) (o : WLOut) (hL : LastOk st)
    (h : whoislookup lookup st l = .ok o) : LastOk o.st := by
  rcases whoislookup_ok_state lookup st l o h with
    heq | ⟨e, hnone, hnf, heq⟩ | ⟨hnone, hnf, heq⟩
  · rw [heq]; exact hL
  · rw [heq]
    intro A hA
    exact hL A hA
  · rw [heq]
    intro A hA
    injection hA with hA
    subst hA
    exact mem_setAdd.mpr (Or.inr rfl)

theorem enrichLoop_cons_err (lookup : String → LookupOutcome)
    (st : WhoisState) (l : Record) (ls : List Record) (e : Unit)
    (hw : whoislookup lookup st l = .error e) :
    enrichLoop lookup st (l :: ls) = (st, l :: ls, true) := by
  unfold enrichLoop
  rw [hw]

theorem enrichLoop_cons_ok (lookup : String → LookupOutcome)
    (st : WhoisState) (l : Record) (ls : List Record) (o : WLOut)
    (st2 : WhoisState) (ls2 : List Record) (err2 : Bool)
    (hw : whoislookup lookup st l = .ok o)
    (hrec : enrichLoop lookup o.st ls = (st2, ls2, err2)) :
    enrichLoop lookup st (l :: ls) = (st2, o.record :: ls2, err2) := by
  have hred : (match enrichLoop lookup o.st ls with
               | (a, b, c) => (a, o.record :: b, c)) =
      ((st2 : WhoisState), o.record :: ls2, err2) := by
    rw [hrec]
  unfold enrichLoop
  rw [hw]
  exact hred

theorem enrichLoop_preserves (lookup : String → LookupOutcome)
    {P : WhoisState → Prop}
    (hP : ∀ st l o, P st → whoislookup lookup st l = .ok o → P o.st) :
    ∀ (data : List Record) (st st' : WhoisState) (data' : List Record)
      (err : Bool), P st → enrichLoop lookup st data = (st', data', err) →
      P st' := by
  intro data
  induction data with
  | nil =>
    intro st st' data' err h0 h
    simp [enrichLoop] at h
    rw [← h.1]
    exact h0
  | cons l ls ih =>
    intro st st' data' err h0 h
    cases hw : whoislookup lookup st l with
    | error e =>
      rw [enrichLoop_cons_err lookup st l ls e hw] at h
      injection h with h1 h2
      rw [← h1]
      exact h0
    | ok o =>
      rcases hrec : enrichLoop lookup o.st ls with ⟨st2, ls2, err2⟩
      rw [enrichLoop_cons_ok lookup st l ls o st2 ls2 err2 hw hrec] at h
      injection h with h1 h2
      rw [← h1]
      exact ih o.st st2 ls2 err2 (hP st l o h0 hw) hrec

theorem enrichLoop_err_drop (lookup : String → LookupOutcome) :
    ∀ (data : List Record) (st st' : WhoisState) (data' : List Record),
      enrichLoop lookup st data = (st', data', true) →
      ∃ n, n < data.length ∧ data'.drop n = data.drop n := by
  intro data
  induction data with
  | nil =>
    intro st st' data' h
    simp [enrichLoop] at h
  | cons l ls ih =>
    intro st st' data' h
    cases hw : whoislookup lookup st l with
    | error e =>
      rw [enrichLoop_cons_err lookup st l ls e hw] at h
      injection h with h1 h2
      injection h2 with h2 h3
      refine ⟨0, by simp, ?_⟩
      rw [← h2]
    | ok o =>
      rcases hrec : enrichLoop lookup o.st ls with ⟨st2, ls2, err2⟩
      rw [enrichLoop_cons_ok lookup st l ls o st2 ls2 err2 hw hrec] at h
      injection h with h1 h2
      injection h2 with h2 h3
      rw [h3] at hrec
      obtain ⟨n, hn, hdrop⟩ := ih o.st st2 ls2 hrec
      refine ⟨n + 1, by simpa using hn, ?_⟩
      rw [← h2]
      simpa using hdrop

/-! Claim C1 (corrected): an unexpected lookup error aborts the pass and
triggers rollback-and-persist, but the bare except clause of `collect_whois`
swallows it — no batch-level failure is reported to the caller. -/

/-- C1 amended — if an unexpected error occurs during the enrichment pass,
`collect_whois` performs the rollback and persists the cache pair, returns
normally (the exception is swallowed by the bare `except:`), and the pass is
aborted: from some index `n` inside the data on, the records are returned
exactly as they came in, unenriched. -/
theorem collect_whois_swallows_unexpected (lookup : String → LookupOutcome)
    (st0 : WhoisState) (data : List Record) (st' : WhoisState)
    (data' : List Record)
    (hrun : enrichLoop lookup st0 data = (st', data', true)) :
    collect_whois lookup st0 data =
      .ok ⟨applyRollback st', data',
           some ((applyRollback st').cache, (applyRollback st').failed)⟩ ∧
    ∃ n, n < data.length ∧ data'.drop n = data.drop n := by
  constructor
  · unfold collect_whois
    rw [hrun]
  · exact enrichLoop_err_drop lookup data st0 st' data' hrun

/-- Concrete service whose every lookup raises an unexpected error. -/
def c1lookup : String → LookupOutcome := fun _ => .unexpected

/-- C1 counterexample — on a concrete run in which an unexpected error does
occur during the enrichment pass, `collect_whois` does not report a
batch-level failure: it returns normally instead of propagating
`Except.error`, refuting the claim that the error is not swallowed. -/
theorem unexpected_error_not_reported :
    (enrichLoop c1lookup ⟨[], [], none⟩ [mkRec "1.2.3.4"]).2.2 = true ∧
    collect_whois c1lookup ⟨[], [], none⟩ [mkRec "1.2.3.4"] ≠
      Except.error () := by
  decide

/-- Closed instance of `collect_whois_swallows_unexpected`. -/
theorem collect_whois_swallows_unexpected_witness :
    collect_whois c1lookup ⟨[], [], none⟩ [mkRec "1.2.3.4"] =
      .ok ⟨⟨[], [], none⟩, [mkRec "1.2.3.4"], some ([], [])⟩ ∧
    ∃ n, n < ([mkRec "1.2.3.4"] : List Record).length ∧
      ([mkRec "1.2.3.4"] : List Record).drop n =
      ([mkRec "1.2.3.4"] : List Record).drop n :=
  collect_whois_swallows_unexpected c1lookup ⟨[], [], none⟩ [mkRec "1.2.3.4"]
    ⟨[], [], none⟩ [mkRec "1.2.3.4"] (by decide)

/-! Claim C2: the crash rollback un-marks exactly the most recent failed
address before persisting; earlier failures of the run stay marked. -/

/-- C2 — starting a run (the `last_failed` marker is initially `None`), if
the enrichment pass stops on an unexpected error and address `A` is the most
recent address marked failed (`last_failed = A`), then `A` had indeed been
marked failed, and `collect_whois` persists a cache pair whose failed set
does not contain `A` while every other failed address remains in it. -/
theorem rollback_unmarks_only_last (lookup : String → LookupOutcome)
    (st0 : WhoisState) (data : List Record) (st' : WhoisState)
    (data' : List Record) (A : String)
    (h0 : st0.last_failed = none)
    (hrun : enrichLoop lookup st0 data = (st', data', true))
    (hA : st'.last_failed = some A) :
    A ∈ st'.failed ∧
    collect_whois lookup st0 data =
      .ok ⟨applyRollback st', data',
           some (st'.cache, discardOpt st'.failed (some A))⟩ ∧
    A ∉ discardOpt st'.failed (some A) ∧
    ∀ B, B ∈ st'.failed → B ≠ A → B ∈ discardOpt st'.failed (some A) := by
  have hL : LastOk st' := by
    refine enrichLoop_preserves lookup
      (fun st l o => LastOk_whois lookup st l o) data st0 st' data' true ?_ hrun
    intro A' hA'
    rw [h0] at hA'
    cases hA'
  refine ⟨hL A hA, ?_, ?_, ?_⟩
  · unfold collect_whois
    rw [hrun]
    simp [applyRollback, hA]
  · simp [discardOpt, List.mem_filter]
  · intro B hB hBA
    simp [discardOpt, List.mem_filter, hB, hBA]

/-- Concrete service: two transient failures, then an unexpected error. -/
def c2lookup : String → LookupOutcome :=
  fun ip => if ip = "3.3.3.3" then .unexpected else .transient

/-- Concrete run for the C2 witness. -/
def c2data : List Record := [mkRec "1.1.1.1", mkRec "9.9.9.9", mkRec "3.3.3.3"]

/-- Closed instance of `rollback_unmarks_only_last`: after "1.1.1.1" and
"9.9.9.9" fail and "3.3.3.3" aborts the run, the persisted failed set drops
"9.9.9.9" but keeps "1.1.1.1". -/
theorem rollback_unmarks_only_last_witness :
    "9.9.9.9" ∈ (["1.1.1.1", "9.9.9.9"] : List String) ∧
    "9.9.9.9" ∉ discardOpt ["1.1.1.1", "9.9.9.9"] (some "9.9.9.9") ∧
    "1.1.1.1" ∈ discardOpt ["1.1.1.1", "9.9.9.9"] (some "9.9.9.9") := by
  have h := rollback_unmarks_only_last c2lookup ⟨[], [], none⟩ c2data
    ⟨[], ["1.1.1.1", "9.9.9.9"], some "9.9.9.9"⟩
    [recUpdate (mkRec "1.1.1.1") defaultEntry,
     recUpdate (mkRec "9.9.9.9") defaultEntry, mkRec "3.3.3.3"]
    "9.9.9.9" rfl (by decide) rfl
  exact ⟨h.1, h.2.2.1, h.2.2.2 "1.1.1.1" (by decide) (by decide)⟩

/-! Claim C6: no address is ever both a cache key and a failed-set member. -/

/-- C6 — starting from an empty cache and empty failed set, after any
sequence of enricher lookups (any data, any lookup outcomes) followed by
the rollback handling of `collect_whois`, no address is simultaneously a key of
the resolved cache and a member of the failed set. -/
theorem cache_failed_never_conflict (lookup : String → LookupOutcome)
    (data : List Record) (out : CollectOut)
    (hout : collect_whois lookup ⟨[], [], none⟩ data = .ok out) :
    ∀ a, a ∈ dictKeys out.st.cache → a ∉ out.st.failed := by
  rcases henrich : enrichLoop lookup ⟨[], [], none⟩ data with ⟨st', data', err⟩
  have hdisj : DisjSt st' := by
    refine enrichLoop_preserves lookup
      (fun st l o => DisjSt_whois lookup st l o) data ⟨[], [], none⟩ st'
      data' err ?_ henrich
    intro a ha
    simp [dictKeys] at ha
  unfold collect_whois at hout
  rw [henrich] at hout
  cases err with
  | false =>
    injection hout with h
    rw [← h]
    exact hdisj
  | true =>
    injection hout with h
    rw [← h]
    intro a ha hmem
    exact hdisj a ha (mem_of_mem_discardOpt hmem)

/-- Concrete service for the C6 witness: one success, then failures. -/
def c6lookup : String → LookupOutcome :=
  fun ip => if ip = "1.1.1.1" then .success (some "DE") [] else .transient

/-- Closed instance of `cache_failed_never_conflict`: after one resolved and
one failed address, the resolved address is not in the failed set. -/
theorem cache_failed_never_conflict_witness :
    "1.1.1.1" ∈ dictKeys [("1.1.1.1", ⟨some "DE", [], true⟩)] ∧
    "1.1.1.1" ∉ (["2.2.2.2"] : List String) := by
  have h := cache_failed_never_conflict c6lookup [mkRec "1.1.1.1", mkRec "2.2.2.2"]
    ⟨⟨[("1.1.1.1", ⟨some "DE", [], true⟩)], ["2.2.2.2"], some "2.2.2.2"⟩,
     [recUpdate (mkRec "1.1.1.1") ⟨some "DE", [], true⟩,
      recUpdate (mkRec "2.2.2.2") defaultEntry], none⟩ (by decide)
  exact ⟨by decide, h "1.1.1.1" (by decide)⟩

/-! Claim C3 (corrected): a malformed line does not get skipped — the parse
error propagates and aborts the whole batch. -/

theorem parseLines_err (pd : String → Option Nat) :
    ∀ (lines : List (List String)) (l : List String), l ∈ lines →
      processline pd l = .error () → parseLines pd lines = .error () := by
  intro lines
  induction lines with
  | nil =>
    intro l h herr
    cases h
  | cons a t ih =>
    intro l hmem herr
    rcases List.mem_cons.mp hmem with rfl | hmem'
    · simp [parseLines, herr]
    · cases hp : processline pd a with
      | error e => simp [parseLines, hp]
      | ok r => simp [parseLines, hp, ih l hmem' herr]

/-- C3 amended — a raw log line with fewer fields than the required
positional indices (or an unparseable timestamp) makes `processline` raise;
nothing catches the error, so `read_logfiles` aborts with it and produces no
records at all: the malformed record is not skipped and the remaining lines
are not processed. -/
theorem malformed_line_aborts_batch (pd : String → Option Nat)
    (files : List String) (domain_filter : Record → Bool) (l : List String)
    (hl : l ∈ (files.map readfile).flatten)
    (herr : processline pd l = .error ()) :
    read_logfiles pd files domain_filter = .error () := by
  have h := parseLines_err pd ((files.map readfile).flatten) l hl herr
  simp [read_logfiles, h]

/-- Concrete stand-in for the dateutil fuzzy parser. -/
def c3date : String → Option Nat := fun _ => some 0

/-- Concrete log file: a well-formed line, a two-field line, then another
well-formed line. -/
def c3file : String :=
  "1.2.3.4 u q [d t] /p 200 - r ua\nshort line\n1.2.3.5 u q [d t] /p 200 - r ua\n"

/-- C3 counterexample — a concrete file containing a malformed (two-field)
line followed by a further well-formed line: the malformed record is not
skipped and processing does not continue; instead the whole batch aborts
with the error and even the well-formed lines produce no records. -/
theorem short_line_aborts_whole_batch :
    ["short", "line"] ∈ readfile c3file ∧
    processline c3date ["1.2.3.5", "u", "q", "[d", "t]", "/p", "200", "-",
      "r", "ua"] = .ok (mkRec "1.2.3.5") ∧
    read_logfiles c3date [c3file] (fun _ => true) = Except.error () := by
  refine ⟨by decide, by decide, by decide⟩

/-- Closed instance of `malformed_line_aborts_batch` at the concrete file. -/
theorem malformed_line_aborts_batch_witness :
    read_logfiles c3date [c3file] (fun _ => true) = Except.error () :=
  malformed_line_aborts_batch c3date [c3file] (fun _ => true)
    ["short", "line"] (by decide) (by decide)

/-! Claim C7: saving and reloading the cache pair is the identity. -/

theorem decOptStr_enc (o : Option String) (r : List Tok) :
    decOptStr (encOptStr o ++ r) = some (o, r) := by
  cases o <;> rfl

theorem decBool_enc (b : Bool) (r : List Tok) :
    decBool (encBool b ++ r) = some (b, r) := by
  cases b <;> rfl

theorem decTuple_enc (t : NTuple) (r : List Tok) :
    decTuple (encTuple t ++ r) = some (t, r) := by
  obtain ⟨a, b, c, d⟩ := t
  simp [encTuple, decTuple, List.append_assoc, decOptStr_enc]

theorem decListN_enc {α : Type} (dec : List Tok → Option (α × List Tok))
    (enc : α → List Tok) (henc : ∀ (a : α) (r : List Tok), dec (enc a ++ r) = some (a, r))
    (l : List α) (r : List Tok) :
    decListNWith dec l.length ((l.map enc).flatten ++ r) = some (l, r) := by
  induction l with
  | nil => simp [decListNWith]
  | cons a t ih =>
    simp [decListNWith, List.append_assoc, henc, ih]

theorem decList_enc {α : Type} (dec : List Tok → Option (α × List Tok))
    (enc : α → List Tok) (henc : ∀ (a : α) (r : List Tok), dec (enc a ++ r) = some (a, r))
    (l : List α) (r : List Tok) :
    decListWith dec (encListWith enc l ++ r) = some (l, r) := by
  simp [encListWith, decListWith, decListN_enc dec enc henc]

theorem decEntry_enc (e : WhoisEntry) (r : List Tok) :
    decEntry (encEntry e ++ r) = some (e, r) := by
  obtain ⟨c, ns, d⟩ := e
  simp [encEntry, decEntry, List.append_assoc, decOptStr_enc, decBool_enc,
    decList_enc decTuple encTuple decTuple_enc]

theorem decItem_enc (p : String × WhoisEntry) (r : List Tok) :
    decItem (encItem p ++ r) = some (p, r) := by
  obtain ⟨k, e⟩ := p
  simp [encItem, decItem, decEntry_enc]

theorem decStrTok_enc (s : String) (r : List Tok) :
    decStrTok (encStrTok s ++ r) = some (s, r) := rfl

theorem decPair_enc (c : List (String × WhoisEntry)) (f : List String) :
    decPair (encPair c f) = some (c, f) := by
  have h1 : decListWith decItem (encPair c f) =
      some (c, encListWith encStrTok f) :=
    decList_enc decItem encItem decItem_enc c (encListWith encStrTok f)
  have h2 : decListWith decStrTok (encListWith encStrTok f ++ []) =
      some (f, []) :=
    decList_enc decStrTok encStrTok decStrTok_enc f []
  rw [List.append_nil] at h2
  simp [decPair, h1, h2]

/-- C7 — saving the WHOIS cache pair (resolved-entries mapping, failed set)
to the cache file and loading the file back reproduces an identical pair
(the transient `last_failed` marker is not persisted; it restarts as
`None`). -/
theorem cache_pair_roundtrip (c : List (String × WhoisEntry))
    (f : List String) (lf : Option String) :
    read_whois_cache (some (exportCache ⟨c, f, lf⟩)) = some ⟨c, f, none⟩ := by
  simp [read_whois_cache, exportCache, decPair_enc]

/-! Claims C8–C10: the aggregation views. -/

theorem count_map_eq {α β : Type} [BEq β] (f : α → β) (l : List α) (b : β) :
    (l.map f).count b = (l.filter (fun x => f x == b)).length := by
  induction l with
  | nil => rfl
  | cons a t ih =>
    by_cases h : (f a == b)
    · simp [List.count_cons, List.filter_cons, h, ih]
    · simp [List.count_cons, List.filter_cons, h, ih]

theorem filter_map_eq_filterMap {α β : Type} (p : α → Bool) (f : α → β)
    (g : α → Option β)
    (hpt : ∀ a, (if p a then some (f a) else none) = g a) :
    ∀ l : List α, (l.filter p).map f = l.filterMap g := by
  intro l
  induction l with
  | nil => rfl
  | cons a t ih =>
    rw [List.filter_cons, List.filterMap_cons, ← hpt a]
    by_cases h : p a
    · simp [h, ih]
    · simp [h, ih]

theorem country_pairs_eq (ref : List (String × String)) (data : List Record) :
    (data.filter (countryOk ref)).map (fun d => (countryStr d, d.ip)) =
    countryPairsSpec ref data := by
  refine filter_map_eq_filterMap (countryOk ref) _ _ ?_ data
  intro d
  cases hc : d.country with
  | none => simp [countryOk, hc]
  | some oc =>
    cases oc with
    | none => simp [countryOk, hc]
    | some c =>
      by_cases hin : (isoCodes ref).contains c
      · simp [countryOk, countryStr, hc, hin]
      · have hmem : c ∉ isoCodes ref := by simpa using hin
        simp [countryOk, countryStr, hc, hmem]

/-- C8 — the by-country aggregation counts, for each full country name, the
number of distinct (country code, address) pairs among records whose
resolved country code is in the recognized ISO set; a record whose country
key is absent, `None`, or not in that set contributes nothing, and repeated
(code, address) pairs count once. -/
theorem countries_counts_distinct_pairs (ref : List (String × String))
    (data : List Record) (nm : String) :
    countriesCount ref data nm = countrySpecCount ref data nm := by
  unfold countriesCount countrySpecCount countries
  rw [country_pairs_eq]
  exact count_map_eq (fun p => countryName ref p.1)
    ((countryPairsSpec ref data).dedup) nm

theorem name_pairs_eq (data : List Record) :
    (data.filter hasNames).map (fun d => (firstLabel d, d.ip)) =
    namePairsSpec data := by
  refine filter_map_eq_filterMap hasNames _ _ ?_ data
  intro d
  cases hn : d.names with
  | none => simp [hasNames, hn]
  | some ns =>
    cases ns with
    | nil => simp [hasNames, hn]
    | cons nt nts => simp [hasNames, firstLabel, hn]

/-- Sample record for the C9 instance: address "5.6.7.8" with one ownership
tuple. -/
def c9rec : Record :=
  { mkRec "5.6.7.8" with names := some [(some "Acme Corp", none, none, none)] }

/-- The ownership label of `c9rec`. -/
def c9label : String := mkLabel (some "Acme Corp", none, none, none)

/-- C9 — the unique-per-address name view counts distinct (label, address)
pairs while the raw view counts every qualifying record; in particular two
records sharing the address "5.6.7.8" and an identical ownership label count
once in the unique view and twice in the raw view. -/
theorem names_unique_vs_raw :
    (∀ (data : List Record) (label : String),
      namesCount data true label =
        ((namePairsSpec data).dedup.filter (fun p => p.1 == label)).length ∧
      namesCount data false label =
        ((namePairsSpec data).filter (fun p => p.1 == label)).length) ∧
    namesCount [c9rec, { c9rec with req_url := "other" }] true c9label = 1 ∧
    namesCount [c9rec, { c9rec with req_url := "other" }] false c9label = 2 := by
  refine ⟨?_, by decide, by decide⟩
  intro data label
  constructor
  · unfold namesCount names
    rw [name_pairs_eq]
    exact count_map_eq (fun p => p.1) ((namePairsSpec data).dedup) label
  · unfold namesCount names
    rw [name_pairs_eq]
    exact count_map_eq (fun p => p.1) (namePairsSpec data) label

/-- C10 — in both name views the label of a record is determined solely by
the first tuple of its names sequence: replacing the tuples after the first
never changes any name count; by contrast the keyword scanner
`inspect_name` used by the bot/academic filters does scan the later tuples,
as the two concrete calls show (same first tuple, different verdicts). -/
theorem first_tuple_determines_label :
    (∀ (pre post : List Record) (d : Record) (t : NTuple)
       (ts ts' : List NTuple) (u : Bool) (label : String),
      namesCount (pre ++ { d with names := some (t :: ts) } :: post) u label =
      namesCount (pre ++ { d with names := some (t :: ts') } :: post) u label) ∧
    inspect_name [(some "Acme", none, none, none),
                  (some "internal", none, none, none)] ["Bot"] = false ∧
    inspect_name [(some "Acme", none, none, none),
                  (some "GoogleBot", none, none, none)] ["Bot"] = true := by
  refine ⟨?_, by decide, by decide⟩
  intro pre post d t ts ts' u label
  have hpairs :
      ((pre ++ { d with names := some (t :: ts) } :: post).filter hasNames).map
        (fun d => (firstLabel d, d.ip)) =
      ((pre ++ { d with names := some (t :: ts') } :: post).filter hasNames).map
        (fun d => (firstLabel d, d.ip)) := by
    simp [List.filter_append, List.map_append, List.filter_cons, hasNames,
      firstLabel]
  unfold namesCount names
  rw [hpairs]

end NginxStats
